import Mathlib

/-!
Shallow embedding of the contact-book core from `src/classes.py`
(classes `Name`, `Phone`, `Birthday`, `Record`, `AddressBook`), together
with theorems checking the natural-language specification against it.

Python strings are modelled as `String` (Python `len` counts code points,
as does `String.length`), mutation as explicit state passing, and raised
`ValueError`s as explicit error results.  The error kinds distinguish the
distinct raise sites named by the specification's taxonomy
(ValidationError / CapacityError / NotFoundError).
-/

namespace ContactBook

/-- Decidable equality for error results, so that concrete runs of the
embedded operations can be checked by `decide`. -/
instance {ε α : Type} [DecidableEq ε] [DecidableEq α] : DecidableEq (Except ε α) := fun x y =>
  match x, y with
  | Except.ok a, Except.ok b =>
    if h : a = b then Decidable.isTrue (by rw [h])
    else Decidable.isFalse (by intro hc; cases hc; exact h rfl)
  | Except.error a, Except.error b =>
    if h : a = b then Decidable.isTrue (by rw [h])
    else Decidable.isFalse (by intro hc; cases hc; exact h rfl)
  | Except.ok _, Except.error _ => Decidable.isFalse (by intro hc; cases hc)
  | Except.error _, Except.ok _ => Decidable.isFalse (by intro hc; cases hc)

/-- Error kinds of the core, following the spec's taxonomy: every raise site
in `src/classes.py` raises `ValueError`; the sites are distinguished here by
which rule failed. -/
inductive Err where
  | validation
  | capacity
  | notFound
deriving DecidableEq

/-- Python's `str.isdigit` on a single character: true for characters whose
Unicode `Numeric_Type` is `Digit` or `Decimal`.  Modelled for the code points
exercised in this development: the ASCII decimal digits plus the superscript
digits U+00B9, U+00B2, U+00B3 (CPython also accepts further Unicode digit
characters; none of them occur in this file). -/
def pyCharIsDigit (c : Char) : Bool :=
  c.isDigit || c = '¹' || c = '²' || c = '³'

/-- Python's `str.isdigit`: nonempty and every character is a digit character. -/
def pyStrIsDigit (s : String) : Bool :=
  !s.isEmpty && s.data.all pyCharIsDigit

/-- The phone-format test `len(v) == 10 and v.isdigit()` (the negation of the
guard `len(new_value) != 10 or not new_value.isdigit()` used by the `Phone`
setter, `Record.edit_phone`, and `AddressBook.add_contact` in `src/classes.py`). -/
def phoneValid (s : String) : Bool :=
  s.length == 10 && pyStrIsDigit s

/-- `Phone.__init__` / the `Phone.value` setter (src/classes.py lines 46-58):
raises `ValueError` unless the value is 10 characters of digits; otherwise
stores the string unchanged. -/
def mkPhone (s : String) : Except Err String :=
  if phoneValid s then Except.ok s else Except.error Err.validation

/-- Python `re.match(r"^[A-Za-z]*$", s)` truthiness.  `[A-Za-z]` is the ASCII
letters; `$` in Python matches at the end of the string **or just before a
newline at the end of the string**, so the regex also accepts a letters-only
prefix followed by one final newline character. -/
def nameMatches (s : String) : Bool :=
  s.data.all Char.isAlpha ||
    (!s.isEmpty && s.data.dropLast.all Char.isAlpha && s.data.getLast? == some '\n')

/-- The `Name.value` setter (src/classes.py lines 27-43): raises on an empty
(falsy) string, then raises unless `re.match(r"^[A-Za-z]*$", value)` matches;
otherwise stores the string unchanged. -/
def mkName (s : String) : Except Err String :=
  if s = "" then Except.error Err.validation
  else if !nameMatches s then Except.error Err.validation
  else Except.ok s

/-- Leap-year test of the proleptic Gregorian calendar used by Python's
`datetime`. -/
def isLeap (y : Nat) : Bool :=
  y % 4 == 0 && (y % 100 != 0 || y % 400 == 0)

/-- Length of a month, as validated by Python's `datetime` constructor. -/
def daysInMonth (y m : Nat) : Nat :=
  if m = 2 then (if isLeap y then 29 else 28)
  else if m = 4 ∨ m = 6 ∨ m = 9 ∨ m = 11 then 30
  else 31

/-- The validity check of Python's `datetime` constructor (and of
`datetime.replace`): `MINYEAR = 1 ≤ year ≤ MAXYEAR = 9999`, month in range,
day in range for the month. -/
def dateValid (y m d : Nat) : Bool :=
  decide (1 ≤ y ∧ y ≤ 9999 ∧ 1 ≤ m ∧ m ≤ 12 ∧ 1 ≤ d ∧ d ≤ daysInMonth y m)

/-- A calendar date, the date part of a Python `datetime`. -/
structure Date where
  year : Nat
  month : Nat
  day : Nat
deriving DecidableEq

/-- Days in years `1 .. y-1`, as in CPython `datetime._days_before_year`. -/
def daysBeforeYear (y : Nat) : Nat :=
  (y - 1) * 365 + (y - 1) / 4 - (y - 1) / 100 + (y - 1) / 400

/-- Days in the months of year `y` strictly before month `m`, as in CPython
`datetime._days_before_month`. -/
def daysBeforeMonth (y m : Nat) : Nat :=
  let feb := if isLeap y then 29 else 28
  if m ≤ 1 then 0
  else if m = 2 then 31
  else if m = 3 then 31 + feb
  else if m = 4 then 62 + feb
  else if m = 5 then 92 + feb
  else if m = 6 then 123 + feb
  else if m = 7 then 153 + feb
  else if m = 8 then 184 + feb
  else if m = 9 then 215 + feb
  else if m = 10 then 245 + feb
  else if m = 11 then 276 + feb
  else 306 + feb

/-- Python `date.toordinal()`: day number in the proleptic Gregorian calendar,
with `0001-01-01` having ordinal 1. -/
def toOrdinal (d : Date) : Nat :=
  daysBeforeYear d.year + daysBeforeMonth d.year d.month + d.day

/-- A Python `datetime`: a calendar date plus the time of day, the latter
modelled as microseconds since midnight (Python's finest granularity). -/
structure DateTime where
  date : Date
  micro : Nat
deriving DecidableEq

def microsPerDay : Nat := 86400000000

/-- Microseconds since the epoch `0001-01-01 00:00:00`; Python `datetime`
comparison and subtraction coincide with comparison and subtraction of this
quantity (for time-of-day values below one day, as Python guarantees). -/
def dtMicros (t : DateTime) : Nat :=
  toOrdinal t.date * microsPerDay + t.micro

/-- `datetime.replace(year=y)`: keeps month, day and time of day, and
validates the resulting date, raising `ValueError` if it is invalid (for
example Feb 29 in a non-leap year, or a year outside `1..9999`). -/
def replaceYear (d : Date) (y : Nat) : Option Date :=
  if dateValid y d.month d.day then some ⟨y, d.month, d.day⟩ else none

/-- Split a character list at every `'-'`, like Python `s.split("-")`
(an empty input yields one empty group; adjacent dashes yield empty groups). -/
def splitDashes : List Char → List (List Char)
  | [] => [[]]
  | c :: rest =>
    if c = '-' then [] :: splitDashes rest
    else
      match splitDashes rest with
      | [] => [[c]]
      | g :: gs => (c :: g) :: gs

/-- Decimal value of a digit list. -/
def digitsToNat (cs : List Char) : Nat :=
  cs.foldl (fun n c => n * 10 + (c.toNat - '0'.toNat)) 0

/-- `datetime.strptime(s, "%Y-%m-%d")` as used by the `Birthday` setter:
`%Y` matches exactly four digits, `%m` and `%d` match one or two digits with
values `1..12` and `1..31`, the dashes are literal, nothing may remain
unconsumed, and the `datetime` constructor then validates the calendar date.
Returns the parsed date, or `none` for the `ValueError` case. -/
def parseYMD (s : String) : Option Date :=
  match splitDashes s.data with
  | [ys, ms, ds] =>
    if ys.length = 4 ∧ ys.all Char.isDigit = true ∧
        1 ≤ ms.length ∧ ms.length ≤ 2 ∧ ms.all Char.isDigit = true ∧
        1 ≤ ds.length ∧ ds.length ≤ 2 ∧ ds.all Char.isDigit = true then
      let y := digitsToNat ys
      let m := digitsToNat ms
      let d := digitsToNat ds
      if 1 ≤ m ∧ m ≤ 12 ∧ 1 ≤ d ∧ d ≤ 31 ∧ dateValid y m d = true then
        some ⟨y, m, d⟩
      else none
    else none
  | _ => none

/-- The `Birthday` field (src/classes.py lines 61-80): stores the original
string and the parsed `datetime` (midnight of the parsed date). -/
structure Birthday where
  value : String
  date : Date
deriving DecidableEq

/-- Packaging of a `strptime` outcome into a `Birthday` field. -/
def birthdayOf (s : String) : Option Date → Except Err Birthday
  | some d => Except.ok ⟨s, d⟩
  | none => Except.error Err.validation

/-- `Birthday.__init__`: parses with `strptime("%Y-%m-%d")`, raising
`ValueError` on failure; stores the original string together with the
parsed date. -/
def mkBirthday (s : String) : Except Err Birthday :=
  birthdayOf s (parseYMD s)

/-- A contact record (src/classes.py lines 83-130): validated name, list of
phone values in insertion order, optional birthday. -/
structure Record where
  name : String
  phones : List String
  birthday : Option Birthday
deriving DecidableEq

/-- Python truthiness of an optional string: `None` and `""` are falsy. -/
def pyTruthy (o : Option String) : Bool :=
  match o with
  | none => false
  | some s => !s.isEmpty

/-- Attach a (possibly failed) `Birthday` to a fresh record with name `n`
and no phones. -/
def recWithBday (n : String) : Except Err Birthday → Except Err Record
  | Except.error e => Except.error e
  | Except.ok b => Except.ok ⟨n, [], some b⟩

/-- Body of `Record.__init__` after the `Name` validation: no phones, and a
`Birthday` only when the argument is truthy. -/
def recOfName (birthday : Option String) : Except Err String → Except Err Record
  | Except.error e => Except.error e
  | Except.ok n =>
    if pyTruthy birthday then recWithBday n (mkBirthday (birthday.getD ""))
    else Except.ok ⟨n, [], none⟩

/-- `Record.__init__(name, birthday=None)`: validates the name via `Name`,
starts with no phones, and constructs a `Birthday` only when the argument is
truthy; either validation failure propagates as `ValueError`. -/
def mkRecord (name : String) (birthday : Option String) : Except Err Record :=
  recOfName birthday (mkName name)

/-- `Record.add_phone` (src/classes.py lines 91-96): when fewer than 2 phones
are held, validates via `Phone` (raising `ValueError` on bad format, list
unchanged) and appends; otherwise raises the capacity `ValueError` with the
list unchanged. -/
def add_phone (phones : List String) (phone : String) : List String × Option Err :=
  if phones.length < 2 then
    if phoneValid phone then (phones ++ [phone], none)
    else (phones, some Err.validation)
  else (phones, some Err.capacity)

/-- `Record.remove_phone` (src/classes.py lines 98-99): keeps exactly the
phones whose value differs from the argument. -/
def remove_phone (phones : List String) (phone : String) : List String :=
  phones.filter (fun p => decide (p ≠ phone))

/-- `Record.edit_phone` (src/classes.py lines 101-113): validates the new
value first (raising `ValueError` with the list untouched if invalid), then
overwrites **every** phone equal to `oldp`, and raises the not-found
`ValueError` when no phone matched. -/
def edit_phone (phones : List String) (oldp newp : String) : List String × Option Err :=
  if phoneValid newp = false then (phones, some Err.validation)
  else
    let updated := phones.map (fun p => if p = oldp then newp else p)
    if oldp ∈ phones then (updated, none) else (updated, some Err.notFound)

/-- `Record.find_phone` (src/classes.py lines 115-119): first phone equal to
the argument, if any. -/
def find_phone (phones : List String) (phone : String) : Option String :=
  phones.find? (fun p => decide (p = phone))

/-- Lines 127-128 of `Record.days_to_birthday`: `delta = birthdate - today;
return delta.days` — `timedelta.days` is the floored day count of the
difference (here in microseconds); a failed `replace` has already raised. -/
def dtbFinish (now : DateTime) : Option Date → Except Unit (Option Int)
  | none => Except.error ()
  | some bdf =>
    Except.ok (some (Int.fdiv ((dtMicros ⟨bdf, 0⟩ : Int) - (dtMicros now : Int))
      (microsPerDay : Int)))

/-- Lines 125-128 of the method: bump the birthdate to the next year when it
is strictly earlier than `now`, then hand the (possibly failed) `replace`
result to the subtraction step. -/
def dtbStep (b : Birthday) (now : DateTime) : Option Date → Except Unit (Option Int)
  | none => Except.error ()
  | some bd =>
    dtbFinish now (if dtMicros now > dtMicros ⟨bd, 0⟩ then
                     replaceYear b.date (now.date.year + 1)
                   else some bd)

/-- `Record.days_to_birthday` (src/classes.py lines 121-130): `None` without
a birthday; otherwise the stored birthday `datetime` (midnight) has its year
replaced by the current year, is bumped to the next year when strictly
earlier than `now` (`if today > birthdate`), and the floored day count of
the difference is returned.  Either `replace` may raise `ValueError`
(modelled as `Except.error ()`), which propagates uncaught. -/
def days_to_birthday (r : Record) (now : DateTime) : Except Unit (Option Int) :=
  match r.birthday with
  | none => Except.ok none
  | some b => dtbStep b now (replaceYear b.date now.date.year)

/-- `AddressBook` is a `UserDict`: a mapping from name to record.  Python
dicts preserve insertion order and keep the position of an existing key on
overwrite, so the state is an ordered association list. -/
abbrev AddressBook := List (String × Record)

/-- Python `name in self.data`. -/
def hasName (book : AddressBook) (name : String) : Bool :=
  book.any (fun kv => decide (kv.1 = name))

/-- `AddressBook.add_record` (src/classes.py lines 142-143):
`self.data[record.name.value] = record` — overwrites in place when the key
exists, appends otherwise. -/
def add_record (book : AddressBook) (r : Record) : AddressBook :=
  if hasName book r.name then
    book.map (fun kv => if kv.1 = r.name then (kv.1, r) else kv)
  else book ++ [(r.name, r)]

/-- The messages `AddressBook.add_contact` can print; each failure message is
identified by the check that produced it. -/
inductive AddMsg where
  | added
  | emptyName
  | duplicate
  | badName
  | badPhone1
  | badPhone2
  | badRecord
deriving DecidableEq

/-- The optional second `add_phone` call of `add_contact`
(`if phone2: record.add_phone(phone2_field.value)`). -/
def acSecondPhone (ph1 : List String) : Option String → List String × Option Err
  | some p2v => add_phone ph1 p2v
  | none => (ph1, none)

/-- The tail of `add_contact` after a `Record` was built: the two (uncaught)
`add_phone` calls, then `add_record`.  An error from either call would
escape `add_contact` as an uncaught `ValueError` (`Except.error ()`). -/
def acAddPhones (book : AddressBook) (rec : Record) (p1 : String)
    (p2opt : Option String) : Except Unit (AddressBook × AddMsg) :=
  match add_phone rec.phones p1 with
  | (_, some _) => Except.error ()
  | (ph1, none) =>
    match acSecondPhone ph1 p2opt with
    | (_, some _) => Except.error ()
    | (ph2, none) =>
      Except.ok (add_record book { rec with phones := ph2 }, AddMsg.added)

/-- `add_contact` step: `try: record = Record(name, birthday) except: ...`. -/
def acRecord (book : AddressBook) (p1 : String) (p2opt : Option String) :
    Except Err Record → Except Unit (AddressBook × AddMsg)
  | Except.error _ => Except.ok (book, AddMsg.badRecord)
  | Except.ok rec => acAddPhones book rec p1 p2opt

/-- `add_contact` step: `if phone2: try: phone2_field = Phone(phone2)
except: ...` (a falsy `phone2` skips validation and later insertion). -/
def acPhone2 (book : AddressBook) (nameV p1 : String) (birthday : Option String) :
    Except Err (Option String) → Except Unit (AddressBook × AddMsg)
  | Except.error _ => Except.ok (book, AddMsg.badPhone2)
  | Except.ok p2opt => acRecord book p1 p2opt (mkRecord nameV birthday)

/-- `add_contact` step: `try: phone1_field = Phone(phone1) except: ...`. -/
def acPhone1 (book : AddressBook) (nameV : String) (phone2 birthday : Option String) :
    Except Err String → Except Unit (AddressBook × AddMsg)
  | Except.error _ => Except.ok (book, AddMsg.badPhone1)
  | Except.ok p1 =>
    acPhone2 book nameV p1 birthday
      (if pyTruthy phone2 then (mkPhone (phone2.getD "")).map some else Except.ok none)

/-- `add_contact` step: `try: name_field = Name(name) except: ...`. -/
def acName (book : AddressBook) (phone1 : String) (phone2 birthday : Option String) :
    Except Err String → Except Unit (AddressBook × AddMsg)
  | Except.error _ => Except.ok (book, AddMsg.badName)
  | Except.ok nameV => acPhone1 book nameV phone2 birthday (mkPhone phone1)

/-- `AddressBook.add_contact` (src/classes.py lines 156-199), translated
check for check: empty (falsy) name; duplicate name; `Name(name)`;
`Phone(phone1)`; `Phone(phone2)` when `phone2` is truthy;
`Record(name, birthday)` (which re-validates the name and validates the
birthday); then the uncaught `record.add_phone` calls; finally `add_record`. -/
def add_contact (book : AddressBook) (name phone1 : String)
    (phone2 birthday : Option String) : Except Unit (AddressBook × AddMsg) :=
  if name = "" then Except.ok (book, AddMsg.emptyName)
  else if hasName book name then Except.ok (book, AddMsg.duplicate)
  else acName book phone1 phone2 birthday (mkName name)

/-- The check order the specification prescribes for `add_contact`, written
from the spec's words: (1) name non-empty; (2) name not already present;
(3) name passes Name validation; (4) phone1 passes Phone validation;
(5) phone2, if given, passes Phone validation; (6) birthday, if given, passes
Birthday validation; then the record is built with phone1 (and phone2 if
present) and appended; every failure leaves the book unchanged. -/
def add_contact_spec (book : AddressBook) (name phone1 : String)
    (phone2 birthday : Option String) : AddressBook × AddMsg :=
  if name = "" then (book, AddMsg.emptyName)
  else if hasName book name then (book, AddMsg.duplicate)
  else if nameMatches name = false then (book, AddMsg.badName)
  else if phoneValid phone1 = false then (book, AddMsg.badPhone1)
  else if pyTruthy phone2 = true ∧ phoneValid (phone2.getD "") = false then
    (book, AddMsg.badPhone2)
  else if pyTruthy birthday = true ∧ (parseYMD (birthday.getD "")).isNone then
    (book, AddMsg.badRecord)
  else
    let bday : Option Birthday :=
      if pyTruthy birthday then
        (parseYMD (birthday.getD "")).map (fun d => ⟨birthday.getD "", d⟩)
      else none
    let phones := phone1 :: (if pyTruthy phone2 then [phone2.getD ""] else [])
    (book ++ [(name, ⟨name, phones, bday⟩)], AddMsg.added)

/-- The `while` loop of `AddressBook.iterator` (src/classes.py lines 215-221):
`while current_page < total_records: yield records[current_page :
current_page + page_size]; current_page += page_size`.  `fuel` bounds the
number of iterations; `records.length` iterations are enough whenever
`ps ≥ 1` (for `ps = 0` the source loop never terminates — spec §9 flags this
degenerate case, and every claim assumes `ps ≥ 1`). -/
def iterLoop (records : List Record) (total ps : Nat) : Nat → Nat → List (List Record)
  | 0, _ => []
  | Nat.succ fuel, cp =>
    if cp < total then
      ((records.drop cp).take ps) :: iterLoop records total ps fuel (cp + ps)
    else []

/-- The full page sequence produced by `AddressBook.iterator(page_size)` once
its body runs against book state `book`:
`total_records = len(self.data); records = list(self.data.values())`, then
the paging loop. -/
def iterator (book : AddressBook) (ps : Nat) : List (List Record) :=
  let records := book.map Prod.snd
  iterLoop records records.length ps records.length 0

/-- Pages of size `k+1`: the spec's description of the page sequence,
consecutive non-overlapping chunks, the last possibly shorter. -/
def pages_spec (k : Nat) : List Record → List (List Record)
  | [] => []
  | a :: l => ((a :: l).take (k + 1)) :: pages_spec k (l.drop k)
termination_by l => l.length
decreasing_by simp; omega

/-- Execution state of the generator object returned by
`AddressBook.iterator`: not yet resumed (the body has not run — a Python
generator body only starts at the first `next()`), suspended at the `yield`
with its locals, or exhausted. -/
inductive GenState where
  | notStarted
  | running (total : Nat) (records : List Record) (current : Nat)
  | finished
deriving DecidableEq

/-- The loop head of the generator body: test `current < total`, yield the
next slice and suspend, or fall off the end (StopIteration). -/
def genStep (total : Nat) (records : List Record) (ps current : Nat) :
    Option (List Record) × GenState :=
  if current < total then
    (some ((records.drop current).take ps), GenState.running total records (current + ps))
  else (none, GenState.finished)

/-- One `next()` on the generator.  `bookNow` is the content of `self.data`
at the moment of this resume: the body reads `self.data` only in its first
resume (computing `total_records` and the `records` snapshot); once
suspended at the `yield`, the locals alone drive the iteration. -/
def genNext (bookNow : AddressBook) (ps : Nat) : GenState → Option (List Record) × GenState
  | GenState.notStarted =>
    let records := bookNow.map Prod.snd
    genStep records.length records ps 0
  | GenState.running total records current => genStep total records ps current
  | GenState.finished => (none, GenState.finished)

/-- Calling `book.iterator(page_size)` only creates the generator object; no
line of the body executes, so nothing of the book is read or captured beyond
the `self` reference. -/
def makeIterator (_book : AddressBook) (_ps : Nat) : GenState :=
  GenState.notStarted

/-- Drive the generator: `books i` is the content of `self.data` at the
`i`-th resume (the book may be mutated between resumes), `fuel` the number of
`next()` calls the consumer is willing to make; collects the yielded pages
until StopIteration or the consumer stops. -/
def genConsume (ps : Nat) (books : Nat → AddressBook) : Nat → Nat → GenState → List (List Record)
  | 0, _, _ => []
  | Nat.succ fuel, i, s =>
    match genNext (books i) ps s with
    | (none, _) => []
    | (some page, s2) => page :: genConsume ps books fuel (i + 1) s2

/-- A concrete record used in the iterator scenarios. -/
def recA : Record := ⟨"A", ["1111111111"], none⟩

/-- The book obtained by adding `recA` to the empty book. -/
def book1 : AddressBook := add_record [] recA

/-- A concrete record with birthday 2000-01-01 (the spec's example). -/
def recJan1 : Record := ⟨"Alice", [], some ⟨"2000-01-01", ⟨2000, 1, 1⟩⟩⟩

/-- A concrete record with birthday 2000-02-29, a valid leap-day date. -/
def recFeb29 : Record := ⟨"Bob", [], some ⟨"2000-02-29", ⟨2000, 2, 29⟩⟩⟩

/-- A book with five records, built through `add_record`. -/
def book5 : AddressBook :=
  add_record (add_record (add_record (add_record (add_record []
    ⟨"A", [], none⟩) ⟨"B", [], none⟩) ⟨"C", [], none⟩) ⟨"D", [], none⟩) ⟨"E", [], none⟩

lemma mkName_eq_ok (s t : String) :
    mkName s = Except.ok t ↔ (s ≠ "" ∧ nameMatches s = true ∧ t = s) := by
  unfold mkName
  split_ifs with h1 h2
  · simp [h1]
  · simp only [Bool.not_eq_true'] at h2
    simp [h1, h2]
  · simp only [Bool.not_eq_true', Bool.not_eq_false] at h2
    simp only [h1, h2, ne_eq, not_false_eq_true, true_and, Except.ok.injEq]
    exact eq_comm

lemma mkName_error_or_ok (s : String) :
    mkName s = Except.error Err.validation ∨ mkName s = Except.ok s := by
  unfold mkName
  split_ifs <;> simp

lemma string_ne_empty_isEmpty {s : String} (h : s ≠ "") : s.isEmpty = false := by
  cases he : s.isEmpty
  · rfl
  · exfalso
    apply h
    cases s with
    | mk data =>
      cases data with
      | nil => rfl
      | cons a t =>
        simp only [String.isEmpty, String.endPos, String.utf8ByteSize, beq_iff_eq] at he
        have hb := congrArg String.Pos.byteIdx he
        simp at hb
        have := Char.utf8Size_pos a
        omega

/-- C6: a `Name` is accepted exactly for non-empty strings that are ASCII
letters only **or** ASCII letters followed by one final newline (Python's
`$` matches before a trailing newline, and the source pattern is
`^[A-Za-z]*$`); every other string fails with `ValidationError`, and an
accepted value is stored unchanged. -/
theorem name_validation_characterization (s : String) :
    (mkName s = Except.ok s ↔
      (s ≠ "" ∧ (s.data.all Char.isAlpha = true ∨
        (s.data.dropLast.all Char.isAlpha = true ∧ s.data.getLast? = some '\n')))) ∧
    (∀ t, mkName s = Except.ok t → t = s) ∧
    (mkName s = Except.error Err.validation ∨ mkName s = Except.ok s) := by
  refine ⟨?_, ?_, mkName_error_or_ok s⟩
  · rw [mkName_eq_ok]
    constructor
    · rintro ⟨hne, hm, -⟩
      refine ⟨hne, ?_⟩
      unfold nameMatches at hm
      simp only [Bool.or_eq_true, Bool.and_eq_true, beq_iff_eq] at hm
      rcases hm with h | ⟨⟨-, h1⟩, h2⟩
      · exact Or.inl h
      · exact Or.inr ⟨h1, h2⟩
    · rintro ⟨hne, hm⟩
      refine ⟨hne, ?_, rfl⟩
      unfold nameMatches
      simp only [Bool.or_eq_true, Bool.and_eq_true, beq_iff_eq]
      rcases hm with h | ⟨h1, h2⟩
      · exact Or.inl h
      · exact Or.inr ⟨⟨by simp [string_ne_empty_isEmpty hne], h1⟩, h2⟩
  · intro t ht
    exact ((mkName_eq_ok s t).mp ht).2.2

/-- C6 counterexample: the one-character string `"\n"` is neither empty nor
a match of `^[A-Za-z]+$` (it contains no letter at all), yet the code
accepts it: `$` matches just before a trailing newline. -/
theorem name_newline_counterexample :
    mkName "\x0a" = Except.ok "\x0a" ∧
    "\x0a" ≠ "" ∧
    "\x0a".data.all Char.isAlpha = false := by
  refine ⟨by decide, by decide, by decide⟩

/-- C6 witness: the general characterization applied at the concrete inputs
`"Alice"` (accepted, stored unchanged) and `"abc1"` (rejected). -/
theorem name_validation_witness :
    mkName "Alice" = Except.ok "Alice" ∧
    mkName "abc1" = Except.error Err.validation := by
  constructor
  · exact (name_validation_characterization "Alice").1.mpr (by decide)
  · rcases (name_validation_characterization "abc1").2.2 with h | h
    · exact h
    · exact absurd ((name_validation_characterization "abc1").1.mp h) (by decide)

lemma mkPhone_eq_ok (s t : String) :
    mkPhone s = Except.ok t ↔ (phoneValid s = true ∧ t = s) := by
  unfold mkPhone
  split_ifs with h
  · simp [h, eq_comm]
  · simp only [Bool.not_eq_true] at h
    simp [h]

lemma phoneValid_iff (s : String) :
    phoneValid s = true ↔ (s.length = 10 ∧ s.data.all pyCharIsDigit = true) := by
  unfold phoneValid pyStrIsDigit
  simp only [Bool.and_eq_true, beq_iff_eq, Bool.not_eq_true']
  constructor
  · rintro ⟨hl, -, hd⟩
    exact ⟨hl, hd⟩
  · rintro ⟨hl, hd⟩
    have hne : s ≠ "" := by
      intro h
      rw [h] at hl
      exact absurd hl (by decide)
    exact ⟨hl, string_ne_empty_isEmpty hne, hd⟩

/-- C7: a `Phone` is accepted exactly for strings of exactly 10 characters
each satisfying Python's `str.isdigit` — which holds for the ASCII digits
`0-9` but also for further Unicode digit characters such as the superscript
`'²'`; every other string fails with `ValidationError`, and an accepted
value is stored unchanged. -/
theorem phone_validation_characterization (s : String) :
    (mkPhone s = Except.ok s ↔ (s.length = 10 ∧ s.data.all pyCharIsDigit = true)) ∧
    (∀ t, mkPhone s = Except.ok t → t = s) ∧
    (mkPhone s = Except.error Err.validation ∨ mkPhone s = Except.ok s) := by
  refine ⟨?_, ?_, ?_⟩
  · rw [mkPhone_eq_ok, ← phoneValid_iff]
    simp
  · intro t ht
    exact ((mkPhone_eq_ok s t).mp ht).2
  · unfold mkPhone
    split_ifs <;> simp

/-- C7 counterexample: a string of ten superscript-two characters contains
no ASCII digit `0-9`, yet `Phone` accepts it, because Python's
`str.isdigit` is true for such Unicode digit characters. -/
theorem phone_superscript_counterexample :
    mkPhone "²²²²²²²²²²" = Except.ok "²²²²²²²²²²" ∧
    "²²²²²²²²²²".length = 10 ∧
    "²²²²²²²²²²".data.all Char.isDigit = false := by
  refine ⟨by decide, by decide, by decide⟩

/-- C7 witness: the characterization applied at the concrete inputs
`"1234567890"` (accepted) and `"123"` (rejected). -/
theorem phone_validation_witness :
    mkPhone "1234567890" = Except.ok "1234567890" ∧
    mkPhone "123" = Except.error Err.validation := by
  constructor
  · exact (phone_validation_characterization "1234567890").1.mpr (by decide)
  · rcases (phone_validation_characterization "123").2.2 with h | h
    · exact h
    · exact absurd ((phone_validation_characterization "123").1.mp h) (by decide)

lemma map_id_of_not_mem (phones : List String) (o n : String) (h : o ∉ phones) :
    phones.map (fun p => if p = o then n else p) = phones := by
  induction phones with
  | nil => rfl
  | cons a t ih =>
    simp only [List.mem_cons, not_or] at h
    simp only [List.map_cons]
    rw [if_neg (fun hane => h.1 hane.symm), ih h.2]

/-- C4: `edit_phone(old, new)` validates `new` first — an invalid `new`
yields `ValidationError` with the phones untouched, even when `old` occurs
nowhere; a valid `new` replaces **every** phone equal to `old`; and when no
phone equals `old` the result is `NotFoundError` with the phones untouched. -/
theorem edit_phone_spec (phones : List String) (o n : String) :
    (phoneValid n = false → edit_phone phones o n = (phones, some Err.validation)) ∧
    (phoneValid n = true → o ∈ phones →
      edit_phone phones o n = (phones.map (fun p => if p = o then n else p), none)) ∧
    (phoneValid n = true → o ∉ phones →
      edit_phone phones o n = (phones, some Err.notFound)) := by
  refine ⟨?_, ?_, ?_⟩
  · intro hv
    simp [edit_phone, hv]
  · intro hv hm
    simp [edit_phone, hv, hm]
  · intro hv hm
    simp [edit_phone, hv, hm, map_id_of_not_mem phones o n hm]

/-- C4 witness: the spec's concrete scenario — both duplicate entries are
replaced, not just the first — plus the two failure modes at concrete
inputs. -/
theorem edit_phone_witness :
    edit_phone ["1111111111", "1111111111"] "1111111111" "2222222222"
      = (["2222222222", "2222222222"], none) ∧
    edit_phone ["1111111111"] "3333333333" "bad"
      = (["1111111111"], some Err.validation) ∧
    edit_phone ["1111111111"] "3333333333" "2222222222"
      = (["1111111111"], some Err.notFound) := by
  refine ⟨?_, ?_, ?_⟩
  · have h := (edit_phone_spec ["1111111111", "1111111111"] "1111111111" "2222222222").2.1
      (by decide) (by decide)
    simpa using h
  · exact (edit_phone_spec ["1111111111"] "3333333333" "bad").1 (by decide)
  · exact (edit_phone_spec ["1111111111"] "3333333333" "2222222222").2.2
      (by decide) (by decide)

/-- C5: a record never exceeds 2 phones.  `add_phone` appends a validated
phone when fewer than 2 are held, fails with `ValidationError` on a bad
format (list unchanged), fails with `CapacityError` at 2; all phone
operations preserve the at-most-2 invariant, a fresh record starts empty,
and capacity is the **current** count: after removing one of two phones a
third add succeeds. -/
theorem add_phone_capacity_invariant (phones : List String) (p : String) :
    (phones.length < 2 → phoneValid p = true → add_phone phones p = (phones ++ [p], none)) ∧
    (phones.length < 2 → phoneValid p = false →
      add_phone phones p = (phones, some Err.validation)) ∧
    (2 ≤ phones.length → add_phone phones p = (phones, some Err.capacity)) ∧
    (phones.length ≤ 2 → (add_phone phones p).1.length ≤ 2) ∧
    (∀ q, (remove_phone phones q).length ≤ phones.length) ∧
    (∀ o m, (edit_phone phones o m).1.length = phones.length) ∧
    (∀ nm bd r, mkRecord nm bd = Except.ok r → r.phones = []) ∧
    (∀ a b c, phoneValid c = true → b ≠ a →
      add_phone (remove_phone [a, b] a) c = ([b, c], none)) := by
  refine ⟨?_, ?_, ?_, ?_, ?_, ?_, ?_, ?_⟩
  · intro hl hv
    simp [add_phone, hl, hv]
  · intro hl hv
    simp [add_phone, hl, hv]
  · intro hl
    simp [add_phone, Nat.not_lt.mpr hl]
  · intro hl
    unfold add_phone
    split_ifs with h1 h2 <;> simp <;> omega
  · intro q
    exact List.length_filter_le _ phones
  · intro o m
    unfold edit_phone
    split_ifs <;> simp
  · intro nm bd r hr
    unfold mkRecord at hr
    cases hn : mkName nm with
    | error e => rw [hn] at hr; simp [recOfName] at hr
    | ok v =>
      rw [hn] at hr
      simp only [recOfName] at hr
      by_cases hb : pyTruthy bd = true
      · rw [if_pos hb] at hr
        cases hbb : mkBirthday (bd.getD "") with
        | error e => rw [hbb] at hr; simp [recWithBday] at hr
        | ok b =>
          rw [hbb] at hr
          simp only [recWithBday, Except.ok.injEq] at hr
          subst hr
          rfl
      · rw [if_neg hb] at hr
        simp only [Except.ok.injEq] at hr
        subst hr
        rfl
  · intro a b c hc hba
    have : remove_phone [a, b] a = [b] := by
      simp [remove_phone, hba]
    rw [this]
    simp [add_phone, hc]

/-- C5 witness: the interleaved scenario at concrete inputs — two phones,
remove one, a third add succeeds — together with the capacity failure at
two phones. -/
theorem add_phone_capacity_witness :
    add_phone (remove_phone ["1111111111", "2222222222"] "1111111111") "3333333333"
      = (["2222222222", "3333333333"], none) ∧
    add_phone ["1111111111", "2222222222"] "3333333333"
      = (["1111111111", "2222222222"], some Err.capacity) := by
  constructor
  · exact (add_phone_capacity_invariant ["1111111111", "2222222222"] "x").2.2.2.2.2.2.2
      "1111111111" "2222222222" "3333333333" (by decide) (by decide)
  · exact (add_phone_capacity_invariant ["1111111111", "2222222222"] "3333333333").2.2.1
      (by decide)

/-- C10: with two phones already held, `add_phone` tests capacity before any
format validation — every argument, also a malformed one, produces
`CapacityError` and leaves the phones unchanged; `ValidationError` cannot
occur in that state. -/
theorem add_phone_capacity_before_validation (phones : List String) (p : String)
    (h : phones.length = 2) :
    add_phone phones p = (phones, some Err.capacity) := by
  simp [add_phone, h]

/-- C10 witness: a malformed argument against a full record still reports
`CapacityError`, not `ValidationError`. -/
theorem add_phone_capacity_before_validation_witness :
    add_phone ["1111111111", "2222222222"] "abc"
      = (["1111111111", "2222222222"], some Err.capacity) ∧
    phoneValid "abc" = false := by
  exact ⟨add_phone_capacity_before_validation ["1111111111", "2222222222"] "abc" (by decide),
    by decide⟩

set_option maxHeartbeats 1000000 in
lemma daysBeforeYear_succ (y : Nat) (hy : 1 ≤ y) :
    daysBeforeYear (y + 1) = daysBeforeYear y + (if isLeap y then 366 else 365) := by
  have e4 : y / 4 = (y - 1) / 4 + (if y % 4 = 0 then 1 else 0) := by split_ifs <;> omega
  have e100 : y / 100 = (y - 1) / 100 + (if y % 100 = 0 then 1 else 0) := by
    split_ifs <;> omega
  have e400 : y / 400 = (y - 1) / 400 + (if y % 400 = 0 then 1 else 0) := by
    split_ifs <;> omega
  have hba : (y - 1) / 100 ≤ (y - 1) / 4 := Nat.div_le_div_left (by norm_num) (by norm_num)
  unfold daysBeforeYear isLeap
  simp only [Nat.add_sub_cancel]
  by_cases h4 : y % 4 = 0 <;> by_cases h100 : y % 100 = 0 <;> by_cases h400 : y % 400 = 0 <;>
    simp [h4, h100, h400, e4, e100, e400] <;> omega

lemma dayOfYear_le (y m d : Nat) (hm1 : 1 ≤ m) (hm2 : m ≤ 12) (hd2 : d ≤ daysInMonth y m) :
    daysBeforeMonth y m + d ≤ (if isLeap y then 366 else 365) := by
  by_cases hl : isLeap y = true <;>
    interval_cases m <;>
      simp only [daysInMonth, daysBeforeMonth, hl] at hd2 ⊢ <;>
        simp at hd2 ⊢ <;> omega

lemma dateValid_fields {y m d : Nat} (h : dateValid y m d = true) :
    1 ≤ y ∧ y ≤ 9999 ∧ 1 ≤ m ∧ m ≤ 12 ∧ 1 ≤ d ∧ d ≤ daysInMonth y m := by
  simpa [dateValid] using h

lemma replaceYear_eq_some {d : Date} {y : Nat} {e : Date} :
    replaceYear d y = some e ↔
      (dateValid y d.month d.day = true ∧ e = ⟨y, d.month, d.day⟩) := by
  unfold replaceYear
  split_ifs with h <;> simp [h, eq_comm]

lemma toOrdinal_lt_next_year (nowd : Date) (bm bdd : Nat)
    (hnow : dateValid nowd.year nowd.month nowd.day = true)
    (hb : dateValid (nowd.year + 1) bm bdd = true) :
    toOrdinal nowd < toOrdinal ⟨nowd.year + 1, bm, bdd⟩ := by
  obtain ⟨hy1, -, hm1, hm2, -, hd2⟩ := dateValid_fields hnow
  obtain ⟨-, -, -, -, hbd1, -⟩ := dateValid_fields hb
  have h1 := dayOfYear_le nowd.year nowd.month nowd.day hm1 hm2 hd2
  have h2 := daysBeforeYear_succ nowd.year hy1
  unfold toOrdinal
  generalize (if isLeap nowd.year then 366 else 365) = L at h1 h2
  simp only []
  omega

/-- C9: `Birthday` accepts `"2000-02-29"` (a real calendar date), but
`days_to_birthday` then applies that month and day to the current year via
`datetime.replace`, which raises `ValueError` whenever the current year is
not a leap year — the function is reachable-through-the-public-interface
partial over valid birthdays. -/
theorem days_to_birthday_feb29_raises (now : DateTime)
    (h : isLeap now.date.year = false) :
    mkBirthday "2000-02-29" = Except.ok ⟨"2000-02-29", ⟨2000, 2, 29⟩⟩ ∧
    mkRecord "Bob" (some "2000-02-29") = Except.ok recFeb29 ∧
    days_to_birthday recFeb29 now = Except.error () := by
  refine ⟨by decide, by decide, ?_⟩
  have hnone : replaceYear (⟨2000, 2, 29⟩ : Date) now.date.year = none := by
    unfold replaceYear
    rw [if_neg]
    intro hc
    obtain ⟨-, -, -, -, -, h2⟩ := dateValid_fields hc
    simp [daysInMonth, h] at h2
  simp [days_to_birthday, dtbStep, recFeb29, hnone]

/-- C9 witness: the concrete scenario — birthday Feb 29, 2000, evaluated on
2023-03-01 (2023 is not a leap year) raises instead of returning a count. -/
theorem days_to_birthday_feb29_raises_witness :
    days_to_birthday recFeb29 ⟨⟨2023, 3, 1⟩, 0⟩ = Except.error () ∧
    isLeap 2023 = false :=
  ⟨(days_to_birthday_feb29_raises ⟨⟨2023, 3, 1⟩, 0⟩ (by decide)).2.2, by decide⟩

/-- C3: `days_to_birthday` returns `none` exactly when the record has no
birthday; whenever it returns a count the count is non-negative; and on the
spec's concrete example (birthday `2000-01-01`) it returns 0 on 2023-01-01
midnight and 364 the day after (2023 has 365 days, so next New Year is 364
days after Jan 2). -/
theorem days_to_birthday_spec (r : Record) (now : DateTime)
    (hvd : dateValid now.date.year now.date.month now.date.day = true)
    (hvm : now.micro < microsPerDay) :
    (days_to_birthday r now = Except.ok none ↔ r.birthday = none) ∧
    (∀ k : Int, days_to_birthday r now = Except.ok (some k) → 0 ≤ k) ∧
    days_to_birthday recJan1 ⟨⟨2023, 1, 1⟩, 0⟩ = Except.ok (some 0) ∧
    days_to_birthday recJan1 ⟨⟨2023, 1, 2⟩, 0⟩ = Except.ok (some 364) := by
  refine ⟨?_, ?_, by decide, by decide⟩
  · cases hb : r.birthday with
    | none => simp [days_to_birthday, hb]
    | some b =>
      simp only [days_to_birthday, hb]
      cases hry : replaceYear b.date now.date.year with
      | none => simp [dtbStep]
      | some bd =>
        simp only [dtbStep]
        by_cases hgt : dtMicros now > dtMicros ⟨bd, 0⟩
        · rw [if_pos hgt]
          cases hr2 : replaceYear b.date (now.date.year + 1) with
          | none => simp [dtbFinish]
          | some bdf => simp [dtbFinish]
        · rw [if_neg hgt]
          simp [dtbFinish]
  · intro k hk
    cases hb : r.birthday with
    | none =>
      simp [days_to_birthday, hb] at hk
    | some b =>
      simp only [days_to_birthday, hb] at hk
      cases hry : replaceYear b.date now.date.year with
      | none =>
        rw [hry] at hk
        simp [dtbStep] at hk
      | some bd =>
        rw [hry] at hk
        simp only [dtbStep] at hk
        by_cases hgt : dtMicros now > dtMicros ⟨bd, 0⟩
        · rw [if_pos hgt] at hk
          cases hr2 : replaceYear b.date (now.date.year + 1) with
          | none =>
            rw [hr2] at hk
            simp [dtbFinish] at hk
          | some bdf =>
            rw [hr2] at hk
            simp only [dtbFinish, Except.ok.injEq, Option.some.injEq] at hk
            subst hk
            obtain ⟨hv2, hbdf⟩ := replaceYear_eq_some.mp hr2
            subst hbdf
            have hlt := toOrdinal_lt_next_year now.date b.date.month b.date.day hvd hv2
            apply Int.fdiv_nonneg
            · apply Int.sub_nonneg.mpr
              apply Int.ofNat_le.mpr
              apply Nat.le_of_lt
              unfold microsPerDay at hvm
              unfold dtMicros microsPerDay
              simp only []
              omega
            · norm_num
        · rw [if_neg hgt] at hk
          simp only [dtbFinish, Except.ok.injEq, Option.some.injEq] at hk
          subst hk
          apply Int.fdiv_nonneg
          · exact Int.sub_nonneg.mpr (Int.ofNat_le.mpr (Nat.le_of_not_lt hgt))
          · norm_num

/-- C3 witness: the characterization applied at the concrete record with
birthday `2000-01-01` and the concrete instant 2023-01-01 00:00:00. -/
theorem days_to_birthday_spec_witness :
    days_to_birthday recJan1 ⟨⟨2023, 1, 1⟩, 0⟩ = Except.ok (some 0) :=
  (days_to_birthday_spec recJan1 ⟨⟨2023, 1, 1⟩, 0⟩ (by decide) (by decide)).2.2.1

lemma add_record_append (book : AddressBook) (r : Record)
    (h : hasName book r.name = false) :
    add_record book r = book ++ [(r.name, r)] := by
  simp [add_record, h]

lemma acAddPhones_eval (book : AddressBook) (name : String) (bday : Option Birthday)
    (p1 : String) (p2opt : Option String)
    (hp1 : phoneValid p1 = true)
    (hp2 : ∀ v, p2opt = some v → phoneValid v = true) :
    acAddPhones book ⟨name, [], bday⟩ p1 p2opt
      = Except.ok (add_record book ⟨name, p1 :: p2opt.toList, bday⟩, AddMsg.added) := by
  unfold acAddPhones
  have h1 : add_phone [] p1 = ([p1], none) := by simp [add_phone, hp1]
  cases p2opt with
  | none =>
    simp only [h1, acSecondPhone, Option.toList]
  | some v =>
    have hv : phoneValid v = true := hp2 v rfl
    have hsec : add_phone [p1] v = ([p1, v], none) := by simp [add_phone, hv]
    simp only [h1, acSecondPhone, hsec, Option.toList]

lemma ac_tail (book : AddressBook) (name p1 : String) (p2opt birthday : Option String)
    (h2 : hasName book name = false)
    (hname : mkName name = Except.ok name)
    (hp1 : phoneValid p1 = true)
    (hp2 : ∀ v, p2opt = some v → phoneValid v = true) :
    acRecord book p1 p2opt (mkRecord name birthday)
      = if pyTruthy birthday = true ∧ (parseYMD (birthday.getD "")).isNone then
          Except.ok (book, AddMsg.badRecord)
        else
          Except.ok (book ++ [(name,
            ⟨name, p1 :: p2opt.toList,
             if pyTruthy birthday then
               (parseYMD (birthday.getD "")).map (fun d => ⟨birthday.getD "", d⟩)
             else none⟩)], AddMsg.added) := by
  unfold mkRecord
  rw [hname]
  simp only [recOfName]
  by_cases hbt : pyTruthy birthday = true
  · rw [if_pos hbt]
    unfold mkBirthday
    cases hpd : parseYMD (birthday.getD "") with
    | none =>
      simp only [birthdayOf, recWithBday, acRecord]
      rw [if_pos ⟨hbt, by simp [hpd]⟩]
    | some d =>
      simp only [birthdayOf, recWithBday, acRecord]
      rw [acAddPhones_eval book name _ p1 p2opt hp1 hp2]
      rw [if_neg (by simp [hpd])]
      rw [add_record_append book _ h2]
      rw [if_pos hbt]
      simp [hpd]
  · rw [if_neg hbt]
    simp only [acRecord]
    rw [acAddPhones_eval book name _ p1 p2opt hp1 hp2]
    rw [if_neg (by simp [hbt])]
    rw [add_record_append book _ h2]
    rw [if_neg hbt]

/-- C1: `add_contact` performs its checks in exactly the claimed order —
(1) name non-empty, (2) name not already present (duplicate report),
(3) Name validation, (4) phone1 validation, (5) phone2 validation when
given, (6) birthday validation inside Record construction — and then builds
the record and adds phone1 (and phone2 if present).  The result always
equals the spec-side function written from the claim, in which every failure
returns the book unchanged (so no partial insertion and no mutation of the
existing record on a duplicate name), and no uncaught exception escapes. -/
theorem add_contact_refines_claim_order (book : AddressBook) (name phone1 : String)
    (phone2 birthday : Option String) :
    add_contact book name phone1 phone2 birthday
      = Except.ok (add_contact_spec book name phone1 phone2 birthday) := by
  unfold add_contact add_contact_spec
  by_cases h1 : name = ""
  · rw [if_pos h1, if_pos h1]
  · rw [if_neg h1, if_neg h1]
    by_cases h2 : hasName book name = true
    · rw [if_pos h2, if_pos h2]
    · have h2f : hasName book name = false := by simpa using h2
      rw [if_neg h2, if_neg h2]
      by_cases h3 : nameMatches name = true
      · have hmk : mkName name = Except.ok name := by simp [mkName, h1, h3]
        rw [hmk]
        simp only [acName]
        rw [if_neg (by simp [h3] : ¬nameMatches name = false)]
        by_cases h4 : phoneValid phone1 = true
        · have hp : mkPhone phone1 = Except.ok phone1 := by simp [mkPhone, h4]
          rw [hp]
          simp only [acPhone1]
          rw [if_neg (by simp [h4] : ¬phoneValid phone1 = false)]
          by_cases h5 : pyTruthy phone2 = true
          · by_cases h6 : phoneValid (phone2.getD "") = true
            · have hp2 : (if pyTruthy phone2 then (mkPhone (phone2.getD "")).map some
                  else Except.ok none) = Except.ok (some (phone2.getD "")) := by
                rw [if_pos h5]
                simp [mkPhone, h6, Except.map]
              rw [hp2]
              simp only [acPhone2]
              rw [if_neg (by simp [h6] :
                ¬(pyTruthy phone2 = true ∧ phoneValid (phone2.getD "") = false))]
              rw [ac_tail book name phone1 (some (phone2.getD "")) birthday h2f hmk h4
                (by intro v hv; cases hv; exact h6)]
              by_cases hbc : pyTruthy birthday = true ∧
                  (parseYMD (birthday.getD "")).isNone = true
              · rw [if_pos hbc, if_pos hbc]
              · rw [if_neg hbc, if_neg hbc]
                simp [h5]
            · have h6f : phoneValid (phone2.getD "") = false := by simpa using h6
              have hp2 : (if pyTruthy phone2 then (mkPhone (phone2.getD "")).map some
                  else Except.ok none) = Except.error Err.validation := by
                rw [if_pos h5]
                simp [mkPhone, h6f, Except.map]
              rw [hp2]
              simp only [acPhone2]
              rw [if_pos ⟨h5, h6f⟩]
          · have h5f : pyTruthy phone2 = false := by simpa using h5
            have hp2 : (if pyTruthy phone2 then (mkPhone (phone2.getD "")).map some
                else Except.ok none) = Except.ok none := by
              rw [if_neg (by simp [h5f])]
            rw [hp2]
            simp only [acPhone2]
            rw [if_neg (by simp [h5f] :
              ¬(pyTruthy phone2 = true ∧ phoneValid (phone2.getD "") = false))]
            rw [ac_tail book name phone1 none birthday h2f hmk h4
              (by intro v hv; cases hv)]
            by_cases hbc : pyTruthy birthday = true ∧
                (parseYMD (birthday.getD "")).isNone = true
            · rw [if_pos hbc, if_pos hbc]
            · rw [if_neg hbc, if_neg hbc]
              simp [h5f]
        · have h4f : phoneValid phone1 = false := by simpa using h4
          have hp : mkPhone phone1 = Except.error Err.validation := by
            simp [mkPhone, h4f]
          rw [hp]
          simp only [acPhone1]
          rw [if_pos h4f]
      · have h3f : nameMatches name = false := by simpa using h3
        have hmk : mkName name = Except.error Err.validation := by
          simp [mkName, h1, h3f]
        rw [hmk]
        simp only [acName]
        rw [if_pos h3f]

lemma pages_spec_nil (k : Nat) : pages_spec k [] = [] := by
  rw [pages_spec]

lemma pages_spec_cons (k : Nat) (a : Record) (l : List Record) :
    pages_spec k (a :: l) = ((a :: l).take (k + 1)) :: pages_spec k (l.drop k) := by
  rw [pages_spec]

lemma iterLoop_eq (k : Nat) : ∀ (fuel cp : Nat) (records : List Record),
    records.length ≤ cp + fuel →
    iterLoop records records.length (k + 1) fuel cp = pages_spec k (records.drop cp) := by
  intro fuel
  induction fuel with
  | zero =>
    intro cp records h
    rw [List.drop_eq_nil_of_le (by omega), pages_spec_nil]
    rfl
  | succ fuel ih =>
    intro cp records h
    by_cases hc : cp < records.length
    · obtain ⟨a, l, hal⟩ : ∃ a l, records.drop cp = a :: l := by
        cases hd : records.drop cp with
        | nil =>
          have := List.length_drop cp records
          rw [hd] at this
          simp at this
          omega
        | cons a l => exact ⟨a, l, rfl⟩
      rw [iterLoop, if_pos hc, hal, pages_spec_cons]
      congr 1
      have h2 : records.drop (cp + (k + 1)) = l.drop k := by
        have : records.drop (cp + (k + 1)) = (records.drop cp).drop (k + 1) := by
          rw [List.drop_drop]
        rw [this, hal]
        rfl
      rw [ih (cp + (k + 1)) records (by omega), h2]
    · rw [iterLoop, if_neg hc, List.drop_eq_nil_of_le (by omega), pages_spec_nil]

lemma iterator_eq_pages (book : AddressBook) (k : Nat) :
    iterator book (k + 1) = pages_spec k (book.map Prod.snd) := by
  simp only [iterator]
  rw [iterLoop_eq k _ 0 _ (by omega), List.drop_zero]

lemma pages_spec_flatten (k : Nat) : ∀ (n : Nat) (l : List Record), l.length ≤ n →
    (pages_spec k l).flatten = l := by
  intro n
  induction n with
  | zero =>
    intro l h
    have hl : l = [] := List.eq_nil_of_length_eq_zero (by omega)
    rw [hl, pages_spec_nil]
    rfl
  | succ n ih =>
    intro l h
    cases l with
    | nil => rw [pages_spec_nil]; rfl
    | cons a t =>
      rw [pages_spec_cons, List.flatten_cons]
      rw [ih (t.drop k) (by rw [List.length_drop]; simp at h; omega)]
      have hdt : t.drop k = (a :: t).drop (k + 1) := rfl
      rw [hdt, List.take_append_drop]

lemma pages_spec_page_bound (k : Nat) : ∀ (n : Nat) (l : List Record), l.length ≤ n →
    ∀ p ∈ pages_spec k l, p ≠ [] ∧ p.length ≤ k + 1 := by
  intro n
  induction n with
  | zero =>
    intro l h p hp
    have hl : l = [] := List.eq_nil_of_length_eq_zero (by omega)
    rw [hl, pages_spec_nil] at hp
    cases hp
  | succ n ih =>
    intro l h p hp
    cases l with
    | nil => rw [pages_spec_nil] at hp; cases hp
    | cons a t =>
      rw [pages_spec_cons] at hp
      rcases List.mem_cons.mp hp with rfl | hp2
      · refine ⟨by simp, ?_⟩
        rw [List.length_take]
        omega
      · exact ih (t.drop k) (by rw [List.length_drop]; simp at h; omega) p hp2

lemma pages_spec_eq_nil_iff (k : Nat) (l : List Record) :
    pages_spec k l = [] ↔ l = [] := by
  cases l with
  | nil => simp [pages_spec_nil]
  | cons a t => simp [pages_spec_cons]

lemma pages_spec_dropLast_full (k : Nat) : ∀ (n : Nat) (l : List Record), l.length ≤ n →
    ∀ p ∈ (pages_spec k l).dropLast, p.length = k + 1 := by
  intro n
  induction n with
  | zero =>
    intro l h p hp
    have hl : l = [] := List.eq_nil_of_length_eq_zero (by omega)
    rw [hl, pages_spec_nil] at hp
    cases hp
  | succ n ih =>
    intro l h p hp
    cases l with
    | nil => rw [pages_spec_nil] at hp; cases hp
    | cons a t =>
      rw [pages_spec_cons] at hp
      by_cases ht : t.drop k = []
      · rw [ht, pages_spec_nil] at hp
        cases hp
      · have hrest : pages_spec k (t.drop k) ≠ [] := by
          rw [ne_eq, pages_spec_eq_nil_iff]
          exact ht
        rw [List.dropLast_cons_of_ne_nil hrest] at hp
        rcases List.mem_cons.mp hp with rfl | hp2
        · have hk : k < t.length := by
            by_contra hk
            exact ht (List.drop_eq_nil_of_le (by omega))
          rw [List.length_take]
          simp
          omega
        · exact ih (t.drop k) (by rw [List.length_drop]; simp at h; omega) p hp2

/-- C8: for `page_size ≥ 1` the iterator's pages concatenate to exactly the
book's record values in insertion order (consecutive, non-overlapping,
covering), every page is non-empty with at most `page_size` records, every
page but the last has exactly `page_size`, and over a 5-record book page
size 2 yields page sizes `[2, 2, 1]`. -/
theorem iterator_pages_shape (book : AddressBook) (ps : Nat) (hps : 1 ≤ ps) :
    ((iterator book ps).flatten = book.map Prod.snd) ∧
    (∀ p ∈ iterator book ps, p ≠ [] ∧ p.length ≤ ps) ∧
    (∀ p ∈ (iterator book ps).dropLast, p.length = ps) ∧
    ((iterator book5 2).map List.length = [2, 2, 1]) := by
  obtain ⟨k, rfl⟩ : ∃ k, ps = k + 1 := ⟨ps - 1, by omega⟩
  refine ⟨?_, ?_, ?_, by decide⟩
  · rw [iterator_eq_pages book k]
    exact pages_spec_flatten k (book.map Prod.snd).length _ le_rfl
  · rw [iterator_eq_pages book k]
    exact pages_spec_page_bound k (book.map Prod.snd).length _ le_rfl
  · rw [iterator_eq_pages book k]
    exact pages_spec_dropLast_full k (book.map Prod.snd).length _ le_rfl

/-- C8 witness: the shape theorem applied to the concrete 5-record book with
page size 2. -/
theorem iterator_pages_shape_witness :
    (iterator book5 2).flatten = book5.map Prod.snd :=
  (iterator_pages_shape book5 2 (by decide)).1

lemma genConsume_running (k : Nat) (books : Nat → AddressBook) :
    ∀ (fuel i cp : Nat) (records : List Record),
    genConsume (k + 1) books fuel i (GenState.running records.length records cp)
      = (pages_spec k (records.drop cp)).take fuel := by
  intro fuel
  induction fuel with
  | zero => intro i cp records; rfl
  | succ fuel ih =>
    intro i cp records
    rw [genConsume]
    simp only [genNext, genStep]
    by_cases hc : cp < records.length
    · rw [if_pos hc]
      simp only []
      obtain ⟨a, l, hal⟩ : ∃ a l, records.drop cp = a :: l := by
        cases hd : records.drop cp with
        | nil =>
          have := List.length_drop cp records
          rw [hd] at this
          simp at this
          omega
        | cons a l => exact ⟨a, l, rfl⟩
      rw [hal, pages_spec_cons, List.take_succ_cons]
      congr 1
      have h2 : records.drop (cp + (k + 1)) = l.drop k := by
        have : records.drop (cp + (k + 1)) = (records.drop cp).drop (k + 1) := by
          rw [List.drop_drop]
        rw [this, hal]
        rfl
      rw [ih (i + 1) (cp + (k + 1)) records, h2]
    · rw [if_neg hc, List.drop_eq_nil_of_le (by omega), pages_spec_nil]
      rfl

lemma genConsume_notStarted (k : Nat) (books : Nat → AddressBook) (fuel : Nat) :
    genConsume (k + 1) books fuel 0 GenState.notStarted
      = (iterator (books 0) (k + 1)).take fuel := by
  cases fuel with
  | zero => rfl
  | succ fuel =>
    rw [genConsume]
    simp only [genNext, genStep]
    rw [iterator_eq_pages (books 0) k]
    by_cases hc : 0 < ((books 0).map Prod.snd).length
    · rw [if_pos hc]
      simp only []
      obtain ⟨a, l, hal⟩ : ∃ a l, (books 0).map Prod.snd = a :: l := by
        cases hd : (books 0).map Prod.snd with
        | nil => rw [hd] at hc; cases hc
        | cons a l => exact ⟨a, l, rfl⟩
      have hzero : (GenState.running ((books 0).map Prod.snd).length
          ((books 0).map Prod.snd) (0 + (k + 1)))
          = GenState.running ((books 0).map Prod.snd).length
            ((books 0).map Prod.snd) (k + 1) := by
        rw [Nat.zero_add]
      rw [hzero, genConsume_running k books fuel 1 (k + 1) ((books 0).map Prod.snd)]
      rw [hal, pages_spec_cons, List.take_succ_cons]
      congr 1
    · rw [if_neg hc]
      have : (books 0).map Prod.snd = [] := List.eq_nil_of_length_eq_zero (by omega)
      rw [this, pages_spec_nil]
      rfl

/-- C2 (amended): the generator snapshots the book at its **first resume**,
not at the `iterator(...)` call.  Driving the generator with arbitrary book
states `books i` at the `i`-th resume, the pages are exactly a prefix of the
page sequence computed from `books 0`, the state at the first `next()` — so
mutations between resumes never affect an in-progress iteration, and every
record in any yielded page was a value of the book at first resume. -/
theorem iterator_snapshot_at_first_resume (k fuel : Nat) (books : Nat → AddressBook) :
    (genConsume (k + 1) books fuel 0 GenState.notStarted
      = (iterator (books 0) (k + 1)).take fuel) ∧
    (∀ (r : Record) (page : List Record),
      page ∈ genConsume (k + 1) books fuel 0 GenState.notStarted → r ∈ page →
      r ∈ (books 0).map Prod.snd) := by
  refine ⟨genConsume_notStarted k books fuel, ?_⟩
  intro r page hpage hr
  rw [genConsume_notStarted k books fuel] at hpage
  have hpage2 : page ∈ iterator (books 0) (k + 1) :=
    (List.take_sublist fuel _).subset hpage
  rw [iterator_eq_pages (books 0) k] at hpage2
  have hjoin := pages_spec_flatten k ((books 0).map Prod.snd).length _ le_rfl
  rw [← hjoin]
  exact List.mem_flatten.mpr ⟨page, hpage2, hr⟩

/-- C2 witness: the snapshot theorem applied with one concrete record, page
size 1 and two resumes; the record present at first resume is in a page. -/
theorem iterator_snapshot_at_first_resume_witness :
    recA ∈ book1.map Prod.snd :=
  (iterator_snapshot_at_first_resume 0 2 (fun _ => book1)).2 recA [recA]
    (by decide) (by decide)

/-- C2 counterexample: `iterator(...)` only creates the generator — no body
line runs, so nothing of the book is captured (`makeIterator` ignores the
book).  A generator created on the **empty** book, first resumed after
`recA` was added, yields the page `[recA]`: the record added after calling
`iterator` but before consumption **does** appear in a yielded page, while a
call-time snapshot (second conjunct: the same generator state resumed
against the still-empty book) would have yielded nothing. -/
theorem iterator_snapshot_counterexample :
    makeIterator ([] : AddressBook) 1 = GenState.notStarted ∧
    (genNext ([] : AddressBook) 1 GenState.notStarted).1 = none ∧
    (genNext book1 1 (makeIterator ([] : AddressBook) 1)).1 = some [recA] :=
  ⟨rfl, by decide, by decide⟩

end ContactBook
